import Mathlib

/-!
Shallow embedding of the fluxcli resource synchronization layer
(`pkg/k8s`, file with `ListGitRepositories`, `ListHelmRepositories`,
`ListKustomizations`, `ListHelmReleases`, `SuspendResource`,
`ResumeResource`, `updateSuspendStatus`, `ReconcileResource`) and of the
table view (`pkg/ui/resource_view.go`), together with theorems checking
the natural-language specification against this embedding.

Modelling conventions:
- Go strings are modelled as Lean `String` (the sources only compare and
  slice ASCII data, where Go byte indexing and Lean character indexing
  agree).
- Go `time.Duration` (an `int64` of nanoseconds) is modelled as `Int`;
  Go integer division truncates toward zero, which is `Int.tdiv`.
- Kubernetes client calls are modelled as oracle parameters: each list
  call outcome is an `Except GoError (List _)` argument, and each
  fetcher additionally returns the number of cluster list calls it
  issued, so retry behaviour is visible in the result.
- A Go `error` coming out of the controller-runtime client is modelled
  as `GoError`: its message string plus the outcome of the structured
  not-found test (`client.IgnoreNotFound(err) == nil`).
-/

namespace FluxCLI

/-- Embeds `ResourceType` (a Go string type with four constants); `other`
captures any string outside the four constants, reaching the `default`
arm of the Go switches. -/
inductive ResourceType where
  | gitRepository
  | helmRepository
  | kustomization
  | helmRelease
  | other (s : String)
  deriving DecidableEq, Repr

/-- The string value a `ResourceType` carries in Go (used by `%s` in
error messages). -/
def ResourceType.name : ResourceType → String
  | .gitRepository => "GitRepository"
  | .helmRepository => "HelmRepository"
  | .kustomization => "Kustomization"
  | .helmRelease => "HelmRelease"
  | .other s => s

/-- True exactly for the four kinds handled by the Go switches (the
`default` arm rejects everything else). -/
def ResourceType.supported : ResourceType → Bool
  | .other _ => false
  | _ => true

/-- Embeds the `Condition` struct (status condition copied verbatim from
the cluster object). Times are epoch nanoseconds. -/
structure Condition where
  type : String := ""
  status : String := ""
  reason : String := ""
  message : String := ""
  lastTransitionTime : Int := 0
  deriving DecidableEq, Repr

/-- Embeds the normalized `Resource` struct. Field defaults are the Go
zero values, so partial struct literals behave as in Go. `ns` stands for
the Go field `Namespace`. -/
structure Resource where
  type : ResourceType := .other ""
  name : String := ""
  ns : String := ""
  ready : Bool := false
  status : String := ""
  message : String := ""
  age : Int := 0
  lastUpdate : Int := 0
  conditions : List Condition := []
  suspended : Bool := false
  source : String := ""
  path : String := ""
  revision : String := ""
  url : String := ""
  chart : String := ""
  version : String := ""
  deriving DecidableEq, Repr

/-- Embeds a Go `error` as seen by the fetchers: `msg` is `err.Error()`,
and `isNotFound` is the outcome of the structured not-found predicate,
i.e. whether `client.IgnoreNotFound(err) == nil`. -/
structure GoError where
  msg : String := ""
  isNotFound : Bool := false
  deriving DecidableEq, Repr

/-- Embeds `strings.Contains(s, pat)` (the patterns used by the sources
are ASCII, so character-level containment matches Go's byte-level one). -/
def strContains (s pat : String) : Bool :=
  decide (pat.toList <:+: s.toList)

/-- The error classifier as the specification states it (spec section on
the Error Classifier): an error is kind-not-installed when the structured
not-found predicate matches or the message contains one of three fixed
substrings. The fetchers inline this test; the classification theorems
relate their inlined copies to this predicate. -/
def kindNotInstalled (e : GoError) : Bool :=
  e.isNotFound ||
    strContains e.msg "no matches for kind" ||
    strContains e.msg "could not find the requested resource" ||
    strContains e.msg "the server could not find the requested resource"

/-- Embeds the nil-receiver/nil-argument situations an operation may be
called in (`c == nil`, `c.Client == nil`, `ctx == nil`). -/
structure NilFlags where
  clientNil : Bool := false
  embeddedNil : Bool := false
  ctxNil : Bool := false
  deriving DecidableEq, Repr

/-- All handles valid: the ordinary calling situation. -/
def noNil : NilFlags := {}

/-- Embeds the shared body of the condition loops in
`ListGitRepositories`, `ListKustomizations` and `ListHelmReleases` (the
three loops are textually identical): append the condition to
`resource.Conditions`, and when its type is "Ready" derive
ready/status/message from it. -/
def condStep (r : Resource) (cond : Condition) : Resource :=
  let r' := { r with conditions := r.conditions ++ [cond] }
  if cond.type == "Ready" then
    { r' with
      ready := cond.status == "True"
      status := cond.reason
      message := cond.message }
  else r'

/-- Embeds the `GitRepository` object as far as `ListGitRepositories`
reads it: metadata, `Spec.Suspend`, `Spec.URL`, `Status.Conditions` and
the optional `Status.Artifact.Revision`. -/
structure GitRepository where
  name : String := ""
  ns : String := ""
  creationTimestamp : Int := 0
  specSuspend : Bool := false
  specURL : String := ""
  conditions : List Condition := []
  artifactRevision : Option String := none
  deriving DecidableEq, Repr

/-- Embeds the per-item body of `ListGitRepositories` (synthesis of one
`Resource` from one fetched object); `now` is the clock reading used for
`time.Since` and `time.Now()`. -/
def gitRepositoryToResource (now : Int) (repo : GitRepository) : Resource :=
  let resource : Resource :=
    { type := .gitRepository
      name := repo.name
      ns := repo.ns
      age := now - repo.creationTimestamp
      lastUpdate := now
      suspended := repo.specSuspend
      url := repo.specURL }
  let resource := repo.conditions.foldl condStep resource
  match repo.artifactRevision with
  | some rev => { resource with revision := rev }
  | none => resource

/-- Embeds the `HelmRepository` object (both the v1beta2 and the v1 Go
types expose the same fields to this code). -/
structure HelmRepository where
  name : String := ""
  ns : String := ""
  creationTimestamp : Int := 0
  specSuspend : Bool := false
  specURL : String := ""
  conditions : List Condition := []
  deriving DecidableEq, Repr

/-- Embeds the v1beta2 per-item body of `ListHelmRepositories`: copy all
conditions, then derive ready/status/message from the last condition in
the list (whatever its type) when the list is nonempty. -/
def helmRepositoryToResource (now : Int) (repo : HelmRepository) : Resource :=
  let resource : Resource :=
    { type := .helmRepository
      name := repo.name
      ns := repo.ns
      age := now - repo.creationTimestamp
      lastUpdate := now
      suspended := repo.specSuspend
      url := repo.specURL }
  let resource :=
    repo.conditions.foldl
      (fun r cond => { r with conditions := r.conditions ++ [cond] }) resource
  match repo.conditions.getLast? with
  | some lastCond =>
      { resource with
        status := lastCond.status
        message := lastCond.message
        ready := lastCond.status == "True" }
  | none => resource

/-- Embeds the v1-fallback per-item body of `ListHelmRepositories`; the
Go code duplicates the v1beta2 block verbatim. -/
def helmRepositoryV1ToResource (now : Int) (repo : HelmRepository) : Resource :=
  let resource : Resource :=
    { type := .helmRepository
      name := repo.name
      ns := repo.ns
      age := now - repo.creationTimestamp
      lastUpdate := now
      suspended := repo.specSuspend
      url := repo.specURL }
  let resource :=
    repo.conditions.foldl
      (fun r cond => { r with conditions := r.conditions ++ [cond] }) resource
  match repo.conditions.getLast? with
  | some lastCond =>
      { resource with
        status := lastCond.status
        message := lastCond.message
        ready := lastCond.status == "True" }
  | none => resource

/-- Embeds the `Kustomization` object as far as `ListKustomizations`
reads it. -/
structure Kustomization where
  name : String := ""
  ns : String := ""
  creationTimestamp : Int := 0
  specSuspend : Bool := false
  specPath : String := ""
  sourceRefKind : String := ""
  sourceRefName : String := ""
  conditions : List Condition := []
  lastAppliedRevision : String := ""
  deriving DecidableEq, Repr

/-- Embeds the per-item body of `ListKustomizations`. -/
def kustomizationToResource (now : Int) (ks : Kustomization) : Resource :=
  let resource : Resource :=
    { type := .kustomization
      name := ks.name
      ns := ks.ns
      age := now - ks.creationTimestamp
      lastUpdate := now
      suspended := ks.specSuspend
      path := ks.specPath }
  let resource :=
    if ks.sourceRefKind == "GitRepository" then
      { resource with source := ks.sourceRefName }
    else resource
  let resource := ks.conditions.foldl condStep resource
  if ks.lastAppliedRevision != "" then
    { resource with revision := ks.lastAppliedRevision }
  else resource

/-- Embeds the `HelmRelease` object as far as `ListHelmReleases` reads
it. -/
structure HelmRelease where
  name : String := ""
  ns : String := ""
  creationTimestamp : Int := 0
  specSuspend : Bool := false
  chartSpecChart : String := ""
  chartSpecVersion : String := ""
  sourceRefKind : String := ""
  sourceRefName : String := ""
  conditions : List Condition := []
  lastAppliedRevision : String := ""
  deriving DecidableEq, Repr

/-- Embeds the per-item body of `ListHelmReleases`. -/
def helmReleaseToResource (now : Int) (hr : HelmRelease) : Resource :=
  let resource : Resource :=
    { type := .helmRelease
      name := hr.name
      ns := hr.ns
      age := now - hr.creationTimestamp
      lastUpdate := now
      suspended := hr.specSuspend
      chart := hr.chartSpecChart
      version := hr.chartSpecVersion }
  let resource :=
    if hr.sourceRefKind == "HelmRepository" then
      { resource with source := hr.sourceRefName }
    else resource
  let resource := hr.conditions.foldl condStep resource
  if hr.lastAppliedRevision != "" then
    { resource with revision := hr.lastAppliedRevision }
  else resource

/-- Embeds `ListGitRepositories`. `listOutcome` is what `safeList`
returned for the single list call; the second component of the result is
the number of cluster list calls issued. The function performs no
nil-handle checks (the Go code has none; `_flags` is ignored). -/
def ListGitRepositories (_flags : NilFlags) (now : Int)
    (listOutcome : Except GoError (List GitRepository)) :
    Except String (List Resource) × Nat :=
  match listOutcome with
  | .error err =>
      let errStr := err.msg
      let isCRDMissing :=
        err.isNotFound ||
          (errStr != "" &&
            (strContains errStr "no matches for kind" ||
              strContains errStr "could not find the requested resource" ||
              strContains errStr "the server could not find the requested resource"))
      if isCRDMissing then (.ok [], 1)
      else (.error ("failed to list GitRepositories: " ++ errStr), 1)
  | .ok items => (.ok (items.map (gitRepositoryToResource now)), 1)

/-- Embeds `ListHelmRepositories`: nil-handle guards first, then the
v1beta2 list call; on a CRD-missing classification, one fallback list
call against v1; a CRD-missing fallback yields an empty list. The second
component counts the cluster list calls issued. -/
def ListHelmRepositories (flags : NilFlags) (now : Int)
    (listV1beta2 : Except GoError (List HelmRepository))
    (listV1 : Except GoError (List HelmRepository)) :
    Except String (List Resource) × Nat :=
  if flags.clientNil then (.error "kubernetes client is nil", 0)
  else if flags.embeddedNil then (.error "embedded kubernetes client is nil", 0)
  else if flags.ctxNil then (.error "context is nil", 0)
  else
    match listV1beta2 with
    | .error listErr =>
        let errStr := listErr.msg
        let isCRDMissing :=
          listErr.isNotFound ||
            (errStr != "" &&
              (strContains errStr "no matches for kind" ||
                strContains errStr "could not find the requested resource" ||
                strContains errStr "the server could not find the requested resource"))
        if isCRDMissing then
          match listV1 with
          | .error errV1 =>
              let errV1Str := errV1.msg
              let isV1CRDMissing :=
                errV1.isNotFound ||
                  (errV1Str != "" &&
                    (strContains errV1Str "no matches for kind" ||
                      strContains errV1Str "could not find the requested resource" ||
                      strContains errV1Str "the server could not find the requested resource"))
              if isV1CRDMissing then (.ok [], 2)
              else
                (.error ("failed to list HelmRepositories (tried v1beta2 and v1): v1beta2="
                  ++ errStr ++ ", v1=" ++ errV1Str), 2)
          | .ok items => (.ok (items.map (helmRepositoryV1ToResource now)), 2)
        else (.error ("failed to list HelmRepositories (v1beta2): " ++ errStr), 1)
    | .ok items => (.ok (items.map (helmRepositoryToResource now)), 1)

/-- Embeds `ListKustomizations` (no nil-handle checks in the Go code). -/
def ListKustomizations (_flags : NilFlags) (now : Int)
    (listOutcome : Except GoError (List Kustomization)) :
    Except String (List Resource) × Nat :=
  match listOutcome with
  | .error err =>
      let errStr := err.msg
      let isCRDMissing :=
        err.isNotFound ||
          (errStr != "" &&
            (strContains errStr "no matches for kind" ||
              strContains errStr "could not find the requested resource" ||
              strContains errStr "the server could not find the requested resource"))
      if isCRDMissing then (.ok [], 1)
      else (.error ("failed to list Kustomizations: " ++ errStr), 1)
  | .ok items => (.ok (items.map (kustomizationToResource now)), 1)

/-- Embeds `ListHelmReleases` (no nil-handle checks in the Go code). -/
def ListHelmReleases (_flags : NilFlags) (now : Int)
    (listOutcome : Except GoError (List HelmRelease)) :
    Except String (List Resource) × Nat :=
  match listOutcome with
  | .error err =>
      let errStr := err.msg
      let isCRDMissing :=
        err.isNotFound ||
          (errStr != "" &&
            (strContains errStr "no matches for kind" ||
              strContains errStr "could not find the requested resource" ||
              strContains errStr "the server could not find the requested resource"))
      if isCRDMissing then (.ok [], 1)
      else (.error ("failed to list HelmReleases: " ++ errStr), 1)
  | .ok items => (.ok (items.map (helmReleaseToResource now)), 1)

/-- Embeds a fetched cluster object as far as the mutation operations
touch it: every kind's object carries a `Spec.Suspend` flag and a
metadata map of annotation entries (`anns`, an association list standing
for the Go map; a nil Go map is the empty list). `payload` stands for
all remaining spec/status data, which the mutations never touch. -/
structure ClusterObject where
  name : String := ""
  ns : String := ""
  suspend : Bool := false
  anns : List (String × String) := []
  payload : String := ""
  deriving DecidableEq, Repr

/-- Observable outcome of one mutation operation: its returned
error/success, how many `Get` and `Update` cluster calls it issued, and
the object value passed to `Update` (when `Update` was called). -/
structure MutationTrace where
  result : Except String Unit
  getCalls : Nat
  updateCalls : Nat
  updated : Option ClusterObject
  deriving Repr

/-- Embeds the Go map assignment `annotations[k] = v`: replace the
binding for `k` if present, otherwise add it. -/
def upsertAnn : List (String × String) → String → String → List (String × String)
  | [], k, v => [(k, v)]
  | (k', v') :: rest, k, v =>
      if k' == k then (k, v) :: rest else (k', v') :: upsertAnn rest k v

/-- Embeds the Go map read `annotations[k]`. -/
def lookupAnn : List (String × String) → String → Option String
  | [], _ => none
  | (k', v') :: rest, k => if k' == k then some v' else lookupAnn rest k

/-- Left-pad to two digits. -/
def pad2 (n : Nat) : String :=
  if n < 10 then "0" ++ toString n else toString n

/-- Left-pad to four digits. -/
def pad4 (n : Nat) : String :=
  if n < 10 then "000" ++ toString n
  else if n < 100 then "00" ++ toString n
  else if n < 1000 then "0" ++ toString n
  else toString n

/-- Gregorian date from a count of days since 1970-01-01 (the standard
era-based civil-calendar computation, valid for all days ≥ 0). -/
def civilFromDays (z : Nat) : Nat × Nat × Nat :=
  let z' := z + 719468
  let era := z' / 146097
  let doe := z' % 146097
  let yoe := (doe - doe / 1460 + doe / 36524 - doe / 146096) / 365
  let y := yoe + era * 400
  let doy := doe - (365 * yoe + yoe / 4 - yoe / 100)
  let mp := (5 * doy + 2) / 153
  let d := doy - (153 * mp + 2) / 5 + 1
  let m := if mp < 10 then mp + 3 else mp - 9
  (if m ≤ 2 then y + 1 else y, m, d)

/-- Models the Go standard-library call
`time.Now().UTC().Format(time.RFC3339)` for a clock reading of `sec`
seconds since the Unix epoch: the RFC3339 rendering
"YYYY-MM-DDThh:mm:ssZ" of that instant in UTC. -/
def goRFC3339UTC (sec : Nat) : String :=
  let days := sec / 86400
  let rem := sec % 86400
  let ymd := civilFromDays days
  pad4 ymd.1 ++ "-" ++ pad2 ymd.2.1 ++ "-" ++ pad2 ymd.2.2 ++ "T" ++
    pad2 (rem / 3600) ++ ":" ++ pad2 (rem % 3600 / 60) ++ ":" ++
    pad2 (rem % 60) ++ "Z"

/-- Embeds `updateSuspendStatus`: switch on the resource type (the
`default` arm rejects unknown kinds before any cluster call), `Get` the
object, set its suspend flag to the requested value, `Update` it.
`getOutcome`/`updateOutcome` are the cluster's answers to the two calls.
No nil-handle checks exist in the Go code (`_flags` is ignored). -/
def updateSuspendStatus (_flags : NilFlags) (rt : ResourceType)
    (name _ns : String) (suspend : Bool)
    (getOutcome : Except GoError ClusterObject)
    (updateOutcome : Except GoError Unit) : MutationTrace :=
  match rt with
  | .other s =>
      { result := .error ("unsupported resource type: " ++ s)
        getCalls := 0, updateCalls := 0, updated := none }
  | _ =>
    match getOutcome with
    | .error e =>
        { result := .error ("failed to get " ++ rt.name ++ "/" ++ name ++ ": " ++ e.msg)
          getCalls := 1, updateCalls := 0, updated := none }
    | .ok obj =>
        let obj' := { obj with suspend := suspend }
        match updateOutcome with
        | .error e =>
            { result := .error ("failed to update " ++ rt.name ++ "/" ++ name ++ ": " ++ e.msg)
              getCalls := 1, updateCalls := 1, updated := some obj' }
        | .ok _ =>
            { result := .ok (), getCalls := 1, updateCalls := 1, updated := some obj' }

/-- Embeds `SuspendResource` (delegates with `suspend = true`). -/
def SuspendResource (flags : NilFlags) (rt : ResourceType) (name ns : String)
    (getOutcome : Except GoError ClusterObject)
    (updateOutcome : Except GoError Unit) : MutationTrace :=
  updateSuspendStatus flags rt name ns true getOutcome updateOutcome

/-- Embeds `ResumeResource` (delegates with `suspend = false`). -/
def ResumeResource (flags : NilFlags) (rt : ResourceType) (name ns : String)
    (getOutcome : Except GoError ClusterObject)
    (updateOutcome : Except GoError Unit) : MutationTrace :=
  updateSuspendStatus flags rt name ns false getOutcome updateOutcome

/-- Embeds `ReconcileResource`: switch on the resource type, `Get` the
object, set the reconcile-request annotation to the RFC3339 rendering of
the current UTC time (`nowSec` is the clock reading in epoch seconds),
`Update` the object. No nil-handle checks exist in the Go code. -/
def ReconcileResource (_flags : NilFlags) (rt : ResourceType)
    (name _ns : String) (nowSec : Nat)
    (getOutcome : Except GoError ClusterObject)
    (updateOutcome : Except GoError Unit) : MutationTrace :=
  match rt with
  | .other s =>
      { result := .error ("unsupported resource type: " ++ s)
        getCalls := 0, updateCalls := 0, updated := none }
  | _ =>
    match getOutcome with
    | .error e =>
        { result := .error ("failed to get " ++ rt.name ++ "/" ++ name ++ ": " ++ e.msg)
          getCalls := 1, updateCalls := 0, updated := none }
    | .ok obj =>
        let anns := obj.anns
        let anns := upsertAnn anns "reconcile.fluxcd.io/requestedAt" (goRFC3339UTC nowSec)
        let obj' := { obj with anns := anns }
        match updateOutcome with
        | .error e =>
            { result := .error ("failed to update " ++ rt.name ++ "/" ++ name ++ ": " ++ e.msg)
              getCalls := 1, updateCalls := 1, updated := some obj' }
        | .ok _ =>
            { result := .ok (), getCalls := 1, updateCalls := 1, updated := some obj' }

/-- Embeds the parts of `config.Config.UI` read by the view: the
namespace-display flag and the configured Name/Status column widths. -/
structure UIConfig where
  showNamespace : Bool := false
  columnsName : Int := 20
  columnsStatus : Int := 12
  deriving DecidableEq, Repr

/-- Embeds `formatAge` (`pkg/ui/resource_view.go`): four-tier rendering
of a duration in nanoseconds. Go truncates via `int(...)`, which for the
durations at hand is truncated division (`Int.tdiv`). -/
def formatAge (d : Int) : String :=
  if d < 60000000000 then toString (Int.tdiv d 1000000000) ++ "s"
  else if d < 3600000000000 then toString (Int.tdiv d 60000000000) ++ "m"
  else if d < 86400000000000 then toString (Int.tdiv d 3600000000000) ++ "h"
  else toString (Int.tdiv (Int.tdiv d 3600000000000) 24) ++ "d"

/-- Embeds `createTableRow`: one rendered row (list of cells) for one
resource, switching on the view's current resource type for the trailing
cell. -/
def createTableRow (cfg : UIConfig) (rt : ResourceType) (r : Resource) : List String :=
  let name := if cfg.showNamespace && r.ns != "" then r.ns ++ "/" ++ r.name else r.name
  let ready := if r.ready then "True" else "False"
  let status := r.status
  let status := if status == "" then "Unknown" else status
  let status := if r.suspended then "Suspended" else status
  let status := if status.length > 12 then status.take 9 ++ "…" else status
  let age := formatAge r.age
  let message := if r.message.length > 35 then r.message.take 32 ++ "…" else r.message
  match rt with
  | .gitRepository => [name, ready, status, age, message, r.url]
  | .helmRepository => [name, ready, status, age, message, r.url]
  | .kustomization =>
      let source := if r.path != "" then r.source ++ "/" ++ r.path else r.source
      [name, ready, status, age, message, source]
  | .helmRelease =>
      let chart := if r.version != "" then r.chart ++ ":" ++ r.version else r.chart
      [name, ready, status, age, message, chart]
  | .other _ => [name, ready, status, age, message]

/-- Embeds `table.Column` (title and width). -/
structure Column where
  title : String
  width : Int
  deriving DecidableEq, Repr

/-- Embeds the construction of `baseColumns` in `updateTableColumns`:
the five base columns plus the kind-specific trailing column. -/
def baseColumns (cfg : UIConfig) (rt : ResourceType) : List Column :=
  [⟨"Name", cfg.columnsName⟩, ⟨"Ready", 8⟩, ⟨"Status", cfg.columnsStatus⟩,
    ⟨"Age", 10⟩, ⟨"Message", 35⟩] ++
    (match rt with
     | .gitRepository => [⟨"URL", 40⟩]
     | .helmRepository => [⟨"URL", 40⟩]
     | .kustomization => [⟨"Source/Path", 30⟩]
     | .helmRelease => [⟨"Chart", 25⟩]
     | .other _ => [])

/-- Titles the width-adjustment block treats as flexible. -/
def isFlexTitle (t : String) : Bool :=
  t == "Message" || t == "URL" || t == "Source/Path"

/-- Embeds `updateTableColumns`: the columns handed to
`table.SetColumns` for a given viewport width. The adjustment block
computes `flexWidth`, but its `for _, col := range baseColumns` loop
assigns the new width to the per-iteration copy `col`, so the slice
elements are left untouched in every branch. -/
def updateTableColumns (cfg : UIConfig) (rt : ResourceType) (width : Int) : List Column :=
  let cols := baseColumns cfg rt
  if width > 0 then
    let totalFixedWidth :=
      cols.foldl (fun acc c => if isFlexTitle c.title then acc else acc + c.width) 0
    let flexColumns : Int :=
      cols.foldl (fun acc c => if isFlexTitle c.title then acc + 1 else acc) 0
    if flexColumns > 0 then
      let availableWidth := width - totalFixedWidth - 10
      let flexWidth := Int.tdiv availableWidth flexColumns
      if flexWidth > 20 then
        cols.map (fun c => c)
      else cols
    else cols
  else cols

/-- Modelled from the spec: the width adjustment `updateTableColumns`
was evidently intended to perform (its computation is otherwise dead
code) — when the computed `flexWidth` exceeds the 20-unit floor, every
flexible column receives it; otherwise the columns keep their built
widths. -/
def intendedUpdateTableColumns (cfg : UIConfig) (rt : ResourceType) (width : Int) :
    List Column :=
  let cols := baseColumns cfg rt
  if width > 0 then
    let totalFixedWidth :=
      cols.foldl (fun acc c => if isFlexTitle c.title then acc else acc + c.width) 0
    let flexColumns : Int :=
      cols.foldl (fun acc c => if isFlexTitle c.title then acc + 1 else acc) 0
    if flexColumns > 0 then
      let availableWidth := width - totalFixedWidth - 10
      let flexWidth := Int.tdiv availableWidth flexColumns
      if flexWidth > 20 then
        cols.map (fun c => if isFlexTitle c.title then { c with width := flexWidth } else c)
      else cols
    else cols
  else cols

/-- Embeds `GetSelectedResource`: the resource under the table cursor
when the cursor is a valid index, `nil` otherwise. -/
def GetSelectedResource (resources : List Resource) (cursor : Int) : Option Resource :=
  if h : 0 ≤ cursor ∧ cursor < (resources.length : Int) then
    some (resources.get ⟨cursor.toNat, by omega⟩)
  else none

/-- Claim-side readiness rule for the kinds whose loop keys on the
"Ready" condition: the status of the last "Ready"-typed condition, taken
as readiness; false when no "Ready" condition exists. -/
def readyFromConditions (conds : List Condition) : Bool :=
  match (conds.filter (fun c => c.type == "Ready")).getLast? with
  | some c => c.status == "True"
  | none => false

/-- Claim-side readiness rule actually used by both HelmRepository
paths: the status of the last condition in the list, whatever its type;
false on an empty list. -/
def readyFromLastCondition (conds : List Condition) : Bool :=
  match conds.getLast? with
  | some c => c.status == "True"
  | none => false

/-! Helper lemmas -/

theorem condStep_ready (r : Resource) (c : Condition) :
    (condStep r c).ready = if c.type == "Ready" then c.status == "True" else r.ready := by
  simp only [condStep]
  split <;> rfl

theorem foldl_condStep_ready (conds : List Condition) (r : Resource) :
    (conds.foldl condStep r).ready =
      match (conds.filter (fun c => c.type == "Ready")).getLast? with
      | some c => c.status == "True"
      | none => r.ready := by
  induction conds using List.reverseRecOn generalizing r with
  | nil => simp
  | append_singleton xs c ih =>
      rw [List.foldl_append, List.foldl_cons, List.foldl_nil, condStep_ready,
        List.filter_append]
      cases hc : c.type == "Ready" with
      | true =>
          simp only [hc, if_true, List.filter_cons, List.filter_nil, if_pos rfl]
          rw [List.getLast?_concat]
      | false =>
          simp only [hc, if_false, List.filter_cons, List.filter_nil]
          simp only [Bool.false_eq_true, if_false, List.append_nil]
          exact ih r

theorem foldl_appendCond_ready (conds : List Condition) (r : Resource) :
    (conds.foldl (fun r cond => { r with conditions := r.conditions ++ [cond] }) r).ready
      = r.ready := by
  induction conds generalizing r with
  | nil => rfl
  | cons c cs ih => rw [List.foldl_cons]; exact ih _

theorem tdiv_nonneg_eq_ediv (a b : Int) (ha : 0 ≤ a) (hb : 0 ≤ b) :
    Int.tdiv a b = a / b := by
  lift a to Nat using ha
  lift b to Nat using hb
  rfl

theorem inline_crd_eq (e : GoError) :
    (e.isNotFound ||
      (e.msg != "" &&
        (strContains e.msg "no matches for kind" ||
          strContains e.msg "could not find the requested resource" ||
          strContains e.msg "the server could not find the requested resource"))) =
    kindNotInstalled e := by
  obtain ⟨msg, nf⟩ := e
  by_cases h : msg = ""
  · subst h; cases nf <;> decide
  · have hb : (msg != "") = true := by simpa [bne_iff_ne] using h
    simp [kindNotInstalled, hb, Bool.or_assoc]

theorem lookupAnn_upsertAnn_self (l : List (String × String)) (k v : String) :
    lookupAnn (upsertAnn l k v) k = some v := by
  induction l with
  | nil => simp [upsertAnn, lookupAnn]
  | cons p rest ih =>
      obtain ⟨k', v'⟩ := p
      by_cases h : k' = k
      · subst h; simp [upsertAnn, lookupAnn]
      · simp only [upsertAnn, lookupAnn, beq_iff_eq, if_neg h]
        exact ih

theorem lookupAnn_upsertAnn_other (l : List (String × String)) (k v k' : String)
    (hne : k' ≠ k) :
    lookupAnn (upsertAnn l k v) k' = lookupAnn l k' := by
  induction l with
  | nil =>
      simp only [upsertAnn, lookupAnn, beq_iff_eq]
      rw [if_neg (fun h => hne h.symm)]
  | cons p rest ih =>
      obtain ⟨k0, v0⟩ := p
      by_cases h : k0 = k
      · subst h
        simp only [upsertAnn, beq_iff_eq, if_pos rfl, lookupAnn]
        rw [if_neg (fun h => hne h.symm), if_neg (fun h => hne h.symm)]
      · simp only [upsertAnn, beq_iff_eq, if_neg h, lookupAnn]
        by_cases h0 : k0 = k'
        · rw [if_pos h0, if_pos h0]
        · rw [if_neg h0, if_neg h0]; exact ih

/-! Claim theorems -/

/-- C1 (counterexample): on the primary v1beta2 path of the HelmRepository
fetcher, an object whose only condition is "Reconciling"/"True" — which
carries no "Ready" condition at all — is synthesized with `ready = true`;
and a GitRepository object that does carry a "Ready"/"True" condition
followed by a later "Ready"/"False" condition is synthesized with
`ready = false`. Both refute the claimed equivalence. -/
theorem ready_condition_counterexample :
    (ListHelmRepositories noNil 0
        (.ok [{ name := "repo", ns := "flux-system",
                conditions := [{ type := "Reconciling", status := "True",
                                 reason := "Progressing" }] }])
        (.ok [])).1 =
      .ok [helmRepositoryToResource 0
        { name := "repo", ns := "flux-system",
          conditions := [{ type := "Reconciling", status := "True",
                           reason := "Progressing" }] }] ∧
    (helmRepositoryToResource 0
      { name := "repo", ns := "flux-system",
        conditions := [{ type := "Reconciling", status := "True",
                         reason := "Progressing" }] }).ready = true ∧
    (List.all [({ type := "Reconciling", status := "True",
                  reason := "Progressing" } : Condition)]
      (fun c => !(c.type == "Ready" && c.status == "True"))) = true ∧
    (gitRepositoryToResource 0
      { name := "repo",
        conditions := [{ type := "Ready", status := "True" },
                       { type := "Ready", status := "False" }] }).ready = false ∧
    (List.any [({ type := "Ready", status := "True" } : Condition),
               { type := "Ready", status := "False" }]
      (fun c => c.type == "Ready" && c.status == "True")) = true := by
  exact ⟨rfl, rfl, rfl, rfl, rfl⟩

/-- C1 (amended): for every object fetched on its primary API-version
path, GitRepository, Kustomization and HelmRelease derive `ready` from
the last condition of type "Ready" (true iff its status is "True";
false when no "Ready" condition exists), while HelmRepository — on its
primary v1beta2 path just as on the v1 fallback — derives `ready` from
the last condition in the list whatever its type (true iff that
condition's status is "True"; false when the list is empty). -/
theorem ready_condition_derivation (now : Int) (g : GitRepository)
    (ks : Kustomization) (hr : HelmRelease) (h2 hv1 : HelmRepository) :
    (gitRepositoryToResource now g).ready = readyFromConditions g.conditions ∧
    (kustomizationToResource now ks).ready = readyFromConditions ks.conditions ∧
    (helmReleaseToResource now hr).ready = readyFromConditions hr.conditions ∧
    (helmRepositoryToResource now h2).ready = readyFromLastCondition h2.conditions ∧
    (helmRepositoryV1ToResource now hv1).ready = readyFromLastCondition hv1.conditions := by
  refine ⟨?_, ?_, ?_, ?_, ?_⟩
  · simp only [gitRepositoryToResource, readyFromConditions]
    cases g.artifactRevision <;>
      simp [foldl_condStep_ready]
  · simp only [kustomizationToResource, readyFromConditions]
    split <;> split <;> simp [foldl_condStep_ready]
  · simp only [helmReleaseToResource, readyFromConditions]
    split <;> split <;> simp [foldl_condStep_ready]
  · simp only [helmRepositoryToResource, readyFromLastCondition]
    cases h2.conditions.getLast? <;>
      simp [foldl_appendCond_ready]
  · simp only [helmRepositoryV1ToResource, readyFromLastCondition]
    cases hv1.conditions.getLast? <;>
      simp [foldl_appendCond_ready]

/-- C2: when the primary (v1beta2) HelmRepository list call fails with a
kind-not-installed classification, exactly one fallback (v1) list call is
issued; when that fallback is also classified kind-not-installed the
fetcher returns an empty sequence with no error; every other failure, at
either stage, is returned wrapped with kind/version context and issues no
further call. The three other fetchers issue exactly one list call in
every situation (no fallback exists for them). -/
theorem helm_fallback_once (now : Int) (e : GoError)
    (fb : Except GoError (List HelmRepository)) :
    (ListHelmRepositories noNil now (.error e) fb =
      if kindNotInstalled e then
        match fb with
        | .ok items => (.ok (items.map (helmRepositoryV1ToResource now)), 2)
        | .error e2 =>
            if kindNotInstalled e2 then (.ok [], 2)
            else (.error ("failed to list HelmRepositories (tried v1beta2 and v1): v1beta2="
                ++ e.msg ++ ", v1=" ++ e2.msg), 2)
      else (.error ("failed to list HelmRepositories (v1beta2): " ++ e.msg), 1)) ∧
    (∀ items, ListHelmRepositories noNil now (.ok items) fb
        = (.ok (items.map (helmRepositoryToResource now)), 1)) ∧
    (∀ o, (ListGitRepositories noNil now o).2 = 1) ∧
    (∀ o, (ListKustomizations noNil now o).2 = 1) ∧
    (∀ o, (ListHelmReleases noNil now o).2 = 1) := by
  refine ⟨?_, fun items => rfl, ?_, ?_, ?_⟩
  · cases fb with
    | ok items =>
        simp only [ListHelmRepositories, noNil, Bool.false_eq_true, if_false]
        rw [inline_crd_eq e]
    | error e2 =>
        simp only [ListHelmRepositories, noNil, Bool.false_eq_true, if_false]
        rw [inline_crd_eq e, inline_crd_eq e2]
  · intro o; cases o <;> simp only [ListGitRepositories] <;> split <;> rfl
  · intro o; cases o <;> simp only [ListKustomizations] <;> split <;> rfl
  · intro o; cases o <;> simp only [ListHelmReleases] <;> split <;> rfl

/-- C3: a failed list call is recovered as an empty sequence exactly when
the structured not-found predicate matches the error or its message
contains one of the three fixed substrings; every other error is
surfaced wrapped with the operation's context string. Shown for the
GitRepository and HelmRelease fetchers, whose classification code the
claim cites. -/
theorem kind_not_installed_classification (now : Int) (e : GoError) :
    ((ListGitRepositories noNil now (.error e)).1 =
        if kindNotInstalled e then .ok []
        else .error ("failed to list GitRepositories: " ++ e.msg)) ∧
    ((ListGitRepositories noNil now (.error e)).1 = .ok ([] : List Resource) ↔
      (e.isNotFound = true ∨
        strContains e.msg "no matches for kind" = true ∨
        strContains e.msg "could not find the requested resource" = true ∨
        strContains e.msg "the server could not find the requested resource" = true)) ∧
    ((ListHelmReleases noNil now (.error e)).1 =
        if kindNotInstalled e then .ok []
        else .error ("failed to list HelmReleases: " ++ e.msg)) ∧
    ((ListHelmReleases noNil now (.error e)).1 = .ok ([] : List Resource) ↔
      (e.isNotFound = true ∨
        strContains e.msg "no matches for kind" = true ∨
        strContains e.msg "could not find the requested resource" = true ∨
        strContains e.msg "the server could not find the requested resource" = true)) := by
  have hg : (ListGitRepositories noNil now (.error e)).1 =
      if kindNotInstalled e then .ok []
      else .error ("failed to list GitRepositories: " ++ e.msg) := by
    simp only [ListGitRepositories]
    rw [inline_crd_eq e]
    split <;> rfl
  have hh : (ListHelmReleases noNil now (.error e)).1 =
      if kindNotInstalled e then .ok []
      else .error ("failed to list HelmReleases: " ++ e.msg) := by
    simp only [ListHelmReleases]
    rw [inline_crd_eq e]
    split <;> rfl
  have hiff : (kindNotInstalled e = true) ↔
      (e.isNotFound = true ∨
        strContains e.msg "no matches for kind" = true ∨
        strContains e.msg "could not find the requested resource" = true ∨
        strContains e.msg "the server could not find the requested resource" = true) := by
    simp [kindNotInstalled, Bool.or_eq_true, or_assoc]
  refine ⟨hg, ?_, hh, ?_⟩
  · rw [hg]
    constructor
    · intro hok
      by_cases hk : kindNotInstalled e
      · exact hiff.mp hk
      · rw [if_neg hk] at hok; exact absurd hok (by simp)
    · intro hd
      rw [if_pos (hiff.mpr hd)]
  · rw [hh]
    constructor
    · intro hok
      by_cases hk : kindNotInstalled e
      · exact hiff.mp hk
      · rw [if_neg hk] at hok; exact absurd hok (by simp)
    · intro hd
      rw [if_pos (hiff.mpr hd)]

/-- C9 (counterexample): with a nil client handle, the HelmRepository
list operation returns its descriptive failure before any cluster call,
but the GitRepository list operation still issues its list call, and the
suspend operation still issues its get and update calls and even
succeeds — the nil handle is not detected before those cluster calls. -/
theorem nil_guard_counterexample :
    ListHelmRepositories ⟨true, false, false⟩ 0 (.ok []) (.ok [])
      = (.error "kubernetes client is nil", 0) ∧
    ListGitRepositories ⟨true, false, false⟩ 0 (.ok []) = (.ok [], 1) ∧
    (SuspendResource ⟨true, false, false⟩ .gitRepository "podinfo" "flux-system"
        (.ok {}) (.ok ())).getCalls = 1 ∧
    (SuspendResource ⟨true, false, false⟩ .gitRepository "podinfo" "flux-system"
        (.ok {}) (.ok ())).updateCalls = 1 ∧
    (SuspendResource ⟨true, false, false⟩ .gitRepository "podinfo" "flux-system"
        (.ok {}) (.ok ())).result = .ok () := by
  exact ⟨rfl, rfl, rfl, rfl, rfl⟩

/-- C9 (amended): only the HelmRepository list operation checks the nil
client handle, nil embedded client and nil context before issuing a
cluster call, answering with an immediate descriptive failure; every
other fetch and mutation operation of the synchronization layer is
insensitive to those nil situations and issues its cluster calls
regardless (the list calls rely on the panic-recovery wrapper around the
underlying call instead of an up-front guard). -/
theorem nil_guard_only_helm_list (flags : NilFlags) (now : Int)
    (lp lf : Except GoError (List HelmRepository))
    (lg : Except GoError (List GitRepository))
    (lk : Except GoError (List Kustomization))
    (lh : Except GoError (List HelmRelease))
    (rt : ResourceType) (name ns : String) (v : Bool) (nowSec : Nat)
    (go : Except GoError ClusterObject) (uo : Except GoError Unit) :
    (ListHelmRepositories flags now lp lf =
      if flags.clientNil then (.error "kubernetes client is nil", 0)
      else if flags.embeddedNil then (.error "embedded kubernetes client is nil", 0)
      else if flags.ctxNil then (.error "context is nil", 0)
      else ListHelmRepositories noNil now lp lf) ∧
    ListGitRepositories flags now lg = ListGitRepositories noNil now lg ∧
    (ListGitRepositories flags now lg).2 = 1 ∧
    ListKustomizations flags now lk = ListKustomizations noNil now lk ∧
    (ListKustomizations flags now lk).2 = 1 ∧
    ListHelmReleases flags now lh = ListHelmReleases noNil now lh ∧
    (ListHelmReleases flags now lh).2 = 1 ∧
    updateSuspendStatus flags rt name ns v go uo
      = updateSuspendStatus noNil rt name ns v go uo ∧
    ReconcileResource flags rt name ns nowSec go uo
      = ReconcileResource noNil rt name ns nowSec go uo ∧
    (updateSuspendStatus flags rt name ns v go uo).getCalls
      = (if rt.supported then 1 else 0) ∧
    (ReconcileResource flags rt name ns nowSec go uo).getCalls
      = (if rt.supported then 1 else 0) := by
  obtain ⟨c, em, cx⟩ := flags
  refine ⟨?_, rfl, ?_, rfl, ?_, rfl, ?_, rfl, rfl, ?_, ?_⟩
  · cases c <;> cases em <;> cases cx <;> simp [ListHelmRepositories, noNil]
  · cases lg <;> simp only [ListGitRepositories] <;> split <;> rfl
  · cases lk <;> simp only [ListKustomizations] <;> split <;> rfl
  · cases lh <;> simp only [ListHelmReleases] <;> split <;> rfl
  · cases rt <;> cases go <;> cases uo <;> rfl
  · cases rt <;> cases go <;> cases uo <;> rfl

/-- C4: for every supported kind, suspend/resume performs exactly one get
followed by exactly one update; the object written back differs from the
fetched one only in its suspend flag, which is set to the requested
value; a failed get yields a get-failed outcome with no update issued; a
failed update yields an update-failed outcome; neither step is ever
issued twice. -/
theorem suspend_one_get_one_update (flags : NilFlags) (rt : ResourceType)
    (name ns : String) (v : Bool) (g : Except GoError ClusterObject)
    (u : Except GoError Unit) (hrt : rt.supported = true) :
    SuspendResource flags rt name ns g u = updateSuspendStatus flags rt name ns true g u ∧
    ResumeResource flags rt name ns g u = updateSuspendStatus flags rt name ns false g u ∧
    (updateSuspendStatus flags rt name ns v g u).getCalls = 1 ∧
    (updateSuspendStatus flags rt name ns v g u).updateCalls ≤ 1 ∧
    (∀ obj, g = .ok obj →
      (updateSuspendStatus flags rt name ns v g u).updateCalls = 1 ∧
      (updateSuspendStatus flags rt name ns v g u).updated = some { obj with suspend := v } ∧
      (u = .ok () → (updateSuspendStatus flags rt name ns v g u).result = .ok ()) ∧
      (∀ e, u = .error e →
        (updateSuspendStatus flags rt name ns v g u).result =
          .error ("failed to update " ++ rt.name ++ "/" ++ name ++ ": " ++ e.msg))) ∧
    (∀ e, g = .error e →
      (updateSuspendStatus flags rt name ns v g u).updateCalls = 0 ∧
      (updateSuspendStatus flags rt name ns v g u).updated = none ∧
      (updateSuspendStatus flags rt name ns v g u).result =
        .error ("failed to get " ++ rt.name ++ "/" ++ name ++ ": " ++ e.msg)) := by
  refine ⟨rfl, rfl, ?_, ?_, ?_, ?_⟩
  · cases rt <;> simp [ResourceType.supported] at hrt ⊢ <;> cases g <;> cases u <;> rfl
  · cases rt <;> cases g <;> cases u <;> simp [updateSuspendStatus]
  · intro obj hg
    subst hg
    cases rt <;> simp [ResourceType.supported] at hrt ⊢ <;> cases u <;>
      simp [updateSuspendStatus] <;> intro e he <;> simp_all
  · intro e hg
    subst hg
    cases rt <;> simp [ResourceType.supported] at hrt ⊢ <;> cases u <;>
      simp [updateSuspendStatus]

/-- C4 (witness): applying the theorem at a concrete input — suspending a
GitRepository whose fetched object has suspend = false writes back the
same object with only the suspend flag flipped. -/
theorem suspend_one_get_one_update_witness :
    ResourceType.supported .gitRepository = true ∧
    (updateSuspendStatus noNil .gitRepository "podinfo" "flux-system" true
        (.ok { name := "podinfo", suspend := false }) (.ok ())).updated =
      some { name := "podinfo", suspend := true } ∧
    (updateSuspendStatus noNil .gitRepository "podinfo" "flux-system" true
        (.ok { name := "podinfo", suspend := false }) (.ok ())).getCalls = 1 := by
  have h := suspend_one_get_one_update noNil .gitRepository "podinfo" "flux-system" true
      (.ok { name := "podinfo", suspend := false }) (.ok ()) (by decide)
  exact ⟨by decide, (h.2.2.2.2.1 { name := "podinfo", suspend := false } rfl).2.1,
    h.2.2.1⟩

/-- C5: for every supported kind, the reconcile trigger performs one get
and one update; the object written back carries exactly the annotation
key "reconcile.fluxcd.io/requestedAt" set to the RFC3339 rendering of the
current UTC time, with every other annotation entry and every other
field preserved; get and update failures produce the same outcomes as
suspend/resume and neither call is ever issued twice. -/
theorem reconcile_sets_requested_at (flags : NilFlags) (rt : ResourceType)
    (name ns : String) (nowSec : Nat) (g : Except GoError ClusterObject)
    (u : Except GoError Unit) (hrt : rt.supported = true) :
    (ReconcileResource flags rt name ns nowSec g u).getCalls = 1 ∧
    (ReconcileResource flags rt name ns nowSec g u).updateCalls ≤ 1 ∧
    (∀ obj, g = .ok obj →
      (ReconcileResource flags rt name ns nowSec g u).updateCalls = 1 ∧
      (ReconcileResource flags rt name ns nowSec g u).updated =
        some { obj with
          anns := upsertAnn obj.anns "reconcile.fluxcd.io/requestedAt"
            (goRFC3339UTC nowSec) } ∧
      (∀ obj', (ReconcileResource flags rt name ns nowSec g u).updated = some obj' →
        lookupAnn obj'.anns "reconcile.fluxcd.io/requestedAt"
          = some (goRFC3339UTC nowSec) ∧
        (∀ k, k ≠ "reconcile.fluxcd.io/requestedAt" →
          lookupAnn obj'.anns k = lookupAnn obj.anns k) ∧
        obj'.suspend = obj.suspend ∧ obj'.payload = obj.payload ∧
        obj'.name = obj.name ∧ obj'.ns = obj.ns) ∧
      (u = .ok () → (ReconcileResource flags rt name ns nowSec g u).result = .ok ()) ∧
      (∀ e, u = .error e →
        (ReconcileResource flags rt name ns nowSec g u).result =
          .error ("failed to update " ++ rt.name ++ "/" ++ name ++ ": " ++ e.msg))) ∧
    (∀ e, g = .error e →
      (ReconcileResource flags rt name ns nowSec g u).updateCalls = 0 ∧
      (ReconcileResource flags rt name ns nowSec g u).updated = none ∧
      (ReconcileResource flags rt name ns nowSec g u).result =
        .error ("failed to get " ++ rt.name ++ "/" ++ name ++ ": " ++ e.msg)) := by
  refine ⟨?_, ?_, ?_, ?_⟩
  · cases rt <;> simp [ResourceType.supported] at hrt ⊢ <;> cases g <;> cases u <;> rfl
  · cases rt <;> cases g <;> cases u <;> simp [ReconcileResource]
  · intro obj hg
    subst hg
    have hupd : ∀ obj',
        obj' = { obj with
          anns := upsertAnn obj.anns "reconcile.fluxcd.io/requestedAt"
            (goRFC3339UTC nowSec) } →
        lookupAnn obj'.anns "reconcile.fluxcd.io/requestedAt"
          = some (goRFC3339UTC nowSec) ∧
        (∀ k, k ≠ "reconcile.fluxcd.io/requestedAt" →
          lookupAnn obj'.anns k = lookupAnn obj.anns k) ∧
        obj'.suspend = obj.suspend ∧ obj'.payload = obj.payload ∧
        obj'.name = obj.name ∧ obj'.ns = obj.ns := by
      intro obj' hobj
      subst hobj
      exact ⟨lookupAnn_upsertAnn_self _ _ _,
        fun k hk => lookupAnn_upsertAnn_other _ _ _ _ hk, rfl, rfl, rfl, rfl⟩
    cases rt <;> first
      | exact (Bool.false_ne_true hrt).elim
      | cases u <;>
          refine ⟨rfl, rfl,
            fun obj' ho => hupd obj' (by simpa [ReconcileResource] using ho.symm),
            ?_, ?_⟩ <;>
          simp [ReconcileResource]
  · intro e hg
    subst hg
    cases rt <;> simp [ResourceType.supported] at hrt ⊢ <;> cases u <;>
      simp [ReconcileResource]

/-- C5 (witness): applying the theorem at a concrete input — reconciling
a Kustomization at clock reading 0 writes back the object with the
requestedAt annotation set to "1970-01-01T00:00:00Z" and the preexisting
annotation entry untouched. -/
theorem reconcile_sets_requested_at_witness :
    ResourceType.supported .kustomization = true ∧
    (ReconcileResource noNil .kustomization "apps" "flux-system" 0
        (.ok { anns := [("team", "platform")] }) (.ok ())).updated =
      some { anns := [("team", "platform"),
                      ("reconcile.fluxcd.io/requestedAt", "1970-01-01T00:00:00Z")] } := by
  have h := reconcile_sets_requested_at noNil .kustomization "apps" "flux-system" 0
      (.ok { anns := [("team", "platform")] }) (.ok ()) (by decide)
  have h2 := (h.2.2.1 { anns := [("team", "platform")] } rfl).2.1
  refine ⟨by decide, ?_⟩
  rw [h2]
  decide

/-- C6 (code evaluated at the failing input): for every viewport width
the columns handed to the table equal the freshly built base columns —
the adjustment loop assigns the computed flexWidth to its per-iteration
copy, so no column width ever changes. At width 200 (GitRepository,
configured Name/Status widths 20/12) the computed flexWidth is 70 > 20,
the intended adjustment would set Message and URL to 70, yet the code
leaves them at 35 and 40. -/
theorem flex_width_never_applied :
    (∀ (cfg : UIConfig) (rt : ResourceType) (w : Int),
        updateTableColumns cfg rt w = baseColumns cfg rt) ∧
    updateTableColumns ⟨false, 20, 12⟩ .gitRepository 200 =
      [⟨"Name", 20⟩, ⟨"Ready", 8⟩, ⟨"Status", 12⟩, ⟨"Age", 10⟩,
        ⟨"Message", 35⟩, ⟨"URL", 40⟩] ∧
    intendedUpdateTableColumns ⟨false, 20, 12⟩ .gitRepository 200 =
      [⟨"Name", 20⟩, ⟨"Ready", 8⟩, ⟨"Status", 12⟩, ⟨"Age", 10⟩,
        ⟨"Message", 70⟩, ⟨"URL", 70⟩] ∧
    updateTableColumns ⟨false, 20, 12⟩ .gitRepository 200 ≠
      intendedUpdateTableColumns ⟨false, 20, 12⟩ .gitRepository 200 := by
  refine ⟨?_, by decide, by decide, by decide⟩
  intro cfg rt w
  simp only [updateTableColumns]
  split <;> try rfl
  split <;> try rfl
  split <;> simp

/-- C7: the rendered status cell is "Suspended" when the resource is
suspended, otherwise its status string, or "Unknown" when that string is
empty; the resulting label is unmodified at length at most 12 and is cut
to its first 9 characters plus an ellipsis beyond that. -/
theorem status_cell_rendering (cfg : UIConfig) (rt : ResourceType) (r : Resource) :
    (createTableRow cfg rt r)[2]? =
      some (
        let label := if r.suspended then "Suspended"
          else if r.status = "" then "Unknown" else r.status
        if label.length ≤ 12 then label else label.take 9 ++ "…") := by
  cases hs : r.suspended with
  | true => cases rt <;> simp [createTableRow, hs] <;> decide
  | false =>
      by_cases hst : r.status = ""
      · cases rt <;> simp [createTableRow, hs, hst] <;> decide
      · cases rt <;> simp [createTableRow, hs, hst] <;> split_ifs <;>
          first | omega | rfl

/-- C8: for every non-negative duration, the age formatter renders the
truncated whole count of seconds, minutes, hours, or days according to
the four threshold tiers (1 minute, 1 hour, 24 hours). -/
theorem format_age_four_tiers (d : Int) (h : 0 ≤ d) :
    formatAge d =
      if d < 60000000000 then toString (d / 1000000000) ++ "s"
      else if d < 3600000000000 then toString (d / 60000000000) ++ "m"
      else if d < 86400000000000 then toString (d / 3600000000000) ++ "h"
      else toString (d / 86400000000000) ++ "d" := by
  have h1 : Int.tdiv d 1000000000 = d / 1000000000 :=
    tdiv_nonneg_eq_ediv _ _ h (by norm_num)
  have h2 : Int.tdiv d 60000000000 = d / 60000000000 :=
    tdiv_nonneg_eq_ediv _ _ h (by norm_num)
  have h3 : Int.tdiv d 3600000000000 = d / 3600000000000 :=
    tdiv_nonneg_eq_ediv _ _ h (by norm_num)
  have h4 : Int.tdiv (d / 3600000000000) 24 = d / 86400000000000 := by
    rw [tdiv_nonneg_eq_ediv _ _ (Int.ediv_nonneg h (by norm_num)) (by norm_num)]
    omega
  simp only [formatAge, h1, h2, h3, h4]

/-- C8 (witness): applying the theorem at the concrete duration 90000
seconds (90000000000000 ns), which renders as "1d" as the claim's
example states. -/
theorem format_age_four_tiers_witness :
    (0 : Int) ≤ 90000000000000 ∧ formatAge 90000000000000 = "1d" := by
  refine ⟨by norm_num, ?_⟩
  rw [format_age_four_tiers 90000000000000 (by norm_num)]
  decide

/-- C10: the selected resource is the one under the table cursor exactly
when the cursor is a valid index of the resource sequence, and nil
otherwise — in particular nil on an empty sequence or a cursor at or
past the end, with no out-of-bounds access possible. -/
theorem selected_resource_in_bounds (rs : List Resource) (c : Int) :
    GetSelectedResource rs c = if 0 ≤ c then rs[c.toNat]? else none := by
  by_cases h1 : 0 ≤ c
  · rw [if_pos h1]
    by_cases h2 : c < (rs.length : Int)
    · rw [GetSelectedResource, dif_pos ⟨h1, h2⟩]
      have hlt : c.toNat < rs.length := by omega
      rw [List.getElem?_eq_getElem hlt]
      simp [List.get_eq_getElem]
    · rw [GetSelectedResource, dif_neg (fun hh => h2 hh.2)]
      rw [List.getElem?_eq_none (by omega)]
  · rw [GetSelectedResource, dif_neg (fun hh => h1 hh.1), if_neg h1]

end FluxCLI
